import Mathlib

/- Shallow embedding of the conversation synchronization engine of the
   messages repository (src/firebase/config.js and
   src/Components/Messages.jsx).  Firestore documents are modelled as Lean
   structures, server timestamps as natural numbers, live queries as pure
   functions of the stored document lists, and the stable comparator sort of
   Array.prototype.sort as insertion sort on lists. -/

/-- Code-unit lexicographic comparison of char lists: the order used by the
default Array.prototype.sort comparator on strings. -/
def charListLe : List Char → List Char → Bool
  | [], _ => true
  | _ :: _, [] => false
  | a :: as, b :: bs => if a < b then true else if b < a then false else charListLe as bs

/-- Lexicographic comparison of two strings through their char lists. -/
def strLe (a b : String) : Bool := charListLe a.data b.data

/-- config.js createChatId (lines 163-166): sort the two participant ids
lexicographically and join them with an underscore. -/
def createChatId (userId1 userId2 : String) : String :=
  if strLe userId1 userId2 then userId1 ++ "_" ++ userId2 else userId2 ++ "_" ++ userId1

/-- JavaScript String.prototype.trim on the char-list view of a string:
drop leading and trailing whitespace. -/
def trimChars (l : List Char) : List Char :=
  ((l.dropWhile Char.isWhitespace).reverse.dropWhile Char.isWhitespace).reverse

/-- Trim of a string, as invoked by sendMessage and handleSendMessage. -/
def jsTrim (s : String) : String := String.mk (trimChars s.data)

/-- Body of a message document: a text message carries the trimmed content,
a media message carries the media-reference fields written by
sendMediaMessage. -/
inductive MsgBody where
  | text (content : String)
  | media (messageType mediaUrl fileName : String) (fileSize : Nat) (fileType : String)
deriving DecidableEq

/-- One message document in a chat's messages subcollection. -/
structure Msg where
  senderId : String
  receiverId : String
  body : MsgBody
  timestamp : Nat
  read : Bool
deriving DecidableEq

/-- The chat document of one conversation together with its messages
subcollection.  A missing chat document reads as empty data in the code
(chatDoc.data() falls back to an empty object), so the fresh conversation is
the state whose unread counters are all zero. -/
structure ChatState where
  msgs : List Msg
  participants : List String
  lastMessage : String
  lastMessageTimestamp : Option Nat
  lastMessageSender : String
  unreadCount : String → Nat

/-- The state of a conversation before its first message. -/
def initChat : ChatState :=
  { msgs := [], participants := [], lastMessage := "",
    lastMessageTimestamp := none, lastMessageSender := "",
    unreadCount := fun _ => 0 }

/-- The getDoc read of the receiver counter inside sendMessage
(config.js lines 191-193): the client reads the current counter value. -/
def readUnreadCount (st : ChatState) (receiverId : String) : Nat :=
  st.unreadCount receiverId

/-- The setDoc merge of chat metadata (config.js lines 196-204): writes the
preview fields, stores the client-computed counter value plus one under the
receiver key and resets the sender key to zero.  In the object literal the
sender key comes second, so when sender and receiver coincide the reset
wins; the sender test therefore comes first here. -/
def writeChatMeta (senderId receiverId preview : String) (t : Nat)
    (currentUnreadCount : Nat) (st : ChatState) : ChatState :=
  { st with
    participants := [senderId, receiverId],
    lastMessage := preview,
    lastMessageTimestamp := some t,
    lastMessageSender := senderId,
    unreadCount := fun u =>
      if u = senderId then 0
      else if u = receiverId then currentUnreadCount + 1
      else st.unreadCount u }

/-- config.js sendMessage (lines 173-211): append the trimmed text message,
then read the receiver counter and merge the chat metadata with the
incremented value. -/
def sendMessage (senderId receiverId content : String) (t : Nat)
    (st : ChatState) : ChatState :=
  let st1 := { st with
    msgs := st.msgs ++ [⟨senderId, receiverId, .text (jsTrim content), t, false⟩] }
  writeChatMeta senderId receiverId (jsTrim content) t
    (readUnreadCount st1 receiverId) st1

/-- The last-message preview sendMediaMessage derives from the media type
(config.js lines 311-322). -/
def mediaPreview (messageType fileName : String) : String :=
  if messageType = "image" then "📷 Photo"
  else if messageType = "video" then "🎥 Video"
  else "📎 " ++ fileName

/-- config.js sendMediaMessage (lines 275-344): append the media message,
then update the chat metadata exactly as sendMessage does, with the
type-specific preview. -/
def sendMediaMessage (senderId receiverId mediaUrl fileName : String)
    (fileSize : Nat) (fileType messageType : String) (t : Nat)
    (st : ChatState) : ChatState :=
  let st1 := { st with
    msgs := st.msgs ++
      [⟨senderId, receiverId, .media messageType mediaUrl fileName fileSize fileType, t, false⟩] }
  writeChatMeta senderId receiverId (mediaPreview messageType fileName) t
    (readUnreadCount st1 receiverId) st1

/-- One append issued by a sender: a text send or a media send. -/
inductive SendOp where
  | text (content : String) (t : Nat)
  | media (mediaUrl fileName : String) (fileSize : Nat)
      (fileType messageType : String) (t : Nat)

/-- Apply one append from the sender to the receiver. -/
def applySend (senderId receiverId : String) (op : SendOp) (st : ChatState) : ChatState :=
  match op with
  | .text content t => sendMessage senderId receiverId content t st
  | .media url name size ftype mtype t =>
      sendMediaMessage senderId receiverId url name size ftype mtype t st

/-- Apply a sequence of appends from the sender to the receiver, in order,
with no interleaved read events. -/
def applySends (senderId receiverId : String) (ops : List SendOp) (st : ChatState) : ChatState :=
  ops.foldl (fun s op => applySend senderId receiverId op s) st

/-- Two sends by the same sender racing in independent client processes,
interleaved as: both message appends, then both getDoc counter reads, then
both metadata writes.  Each client computes its write from its own earlier
read, exactly as sendMessage does. -/
def sendMessageRace (senderId receiverId c1 c2 : String) (t1 t2 : Nat)
    (st : ChatState) : ChatState :=
  let stA : ChatState := { st with
    msgs := st.msgs ++ [⟨senderId, receiverId, .text (jsTrim c1), t1, false⟩] }
  let stB : ChatState := { stA with
    msgs := stA.msgs ++ [⟨senderId, receiverId, .text (jsTrim c2), t2, false⟩] }
  let n1 := readUnreadCount stB receiverId
  let n2 := readUnreadCount stB receiverId
  writeChatMeta senderId receiverId (jsTrim c2) t2 n2
    (writeChatMeta senderId receiverId (jsTrim c1) t1 n1 stB)

/-- config.js markChatAsRead (lines 364-388): reset the user's unread
counter on the chat document, then set read = true on every message
addressed to the user that is still unread. -/
def markChatAsRead (userId : String) (st : ChatState) : ChatState :=
  { st with
    unreadCount := fun u => if u = userId then 0 else st.unreadCount u,
    msgs := st.msgs.map fun m =>
      if m.receiverId = userId ∧ m.read = false then { m with read := true } else m }

/-- Messages.jsx handleSendMessage (lines 266-289): bail out when the
trimmed draft is empty, no chat is selected, or a send is in flight;
otherwise send the trimmed draft to the selected chat. -/
def handleSendMessage (uid newMessage : String) (selectedChat : Option String)
    (sendingMessage : Bool) (t : Nat) (st : ChatState) : ChatState :=
  if jsTrim newMessage = "" ∨ selectedChat = none ∨ sendingMessage = true then st
  else sendMessage uid (selectedChat.getD "") (jsTrim newMessage) t st

/-- One chat-metadata row as held in the chatCounts map of Messages.jsx. -/
structure ChatMeta where
  unreadCount : Nat
  lastMessageTimestamp : Option Nat
deriving DecidableEq

/-- A user document as read from the users collection, restricted to the
fields the conversation ranker consumes. -/
structure UserDoc where
  id : String
  createdAt : Int
deriving DecidableEq

/-- A conversation row after the annotation step of filteredUsers. -/
structure RUser where
  id : String
  isOnline : Bool
  unreadCount : Nat
  lastMessageTime : Option Nat
  createdAt : Int
deriving DecidableEq

/-- The annotation step of filteredUsers (Messages.jsx lines 43-55): drop
the current user, then join each remaining user with its presence flag and
the unread count and last-message time from the chatCounts map. -/
def annotateUsers (users : List UserDoc) (selfId : String)
    (presence : String → Bool) (counts : String → Option ChatMeta) : List RUser :=
  (users.filter fun u => u.id ≠ selfId).map fun u =>
    let meta := counts (createChatId selfId u.id)
    { id := u.id,
      isOnline := presence u.id,
      unreadCount := (meta.map ChatMeta.unreadCount).getD 0,
      lastMessageTime := meta.bind ChatMeta.lastMessageTimestamp,
      createdAt := u.createdAt }

/-- Tail of the filteredUsers comparator (Messages.jsx lines 89-96): online
status, then account creation time, more recent first. -/
def compareUsersTail (a b : RUser) : Int :=
  if a.isOnline ∧ ¬ b.isOnline then -1
  else if ¬ a.isOnline ∧ b.isOnline then 1
  else b.createdAt - a.createdAt

/-- The sort comparator of filteredUsers (Messages.jsx lines 58-97) as the
integer value the JavaScript comparator returns. -/
def compareUsers (selectedChat : Option String) (isActivelyChatting : Bool)
    (a b : RUser) : Int :=
  let isASelected := selectedChat = some a.id
  let isBSelected := selectedChat = some b.id
  if isActivelyChatting = true ∧ isASelected ∧ ¬ isBSelected then -1
  else if isActivelyChatting = true ∧ isBSelected ∧ ¬ isASelected then 1
  else if isActivelyChatting = false ∧ isASelected ∧ ¬ isBSelected ∧ a.lastMessageTime.isSome then -1
  else if isActivelyChatting = false ∧ isBSelected ∧ ¬ isASelected ∧ b.lastMessageTime.isSome then 1
  else if ¬ isASelected ∧ ¬ isBSelected ∧ a.unreadCount > 0 ∧ b.unreadCount = 0 then -1
  else if ¬ isASelected ∧ ¬ isBSelected ∧ a.unreadCount = 0 ∧ b.unreadCount > 0 then 1
  else
    match a.lastMessageTime, b.lastMessageTime with
    | some ta, some tb =>
        if ta > tb then -1
        else if ta < tb then 1
        else compareUsersTail a b
    | some _, none => -1
    | none, some _ => 1
    | none, none => compareUsersTail a b

/-- The order relation induced by the filteredUsers comparator: a sorts at
or before b when the comparator is nonpositive. -/
def userLe (selectedChat : Option String) (isActivelyChatting : Bool)
    (a b : RUser) : Prop :=
  compareUsers selectedChat isActivelyChatting a b ≤ 0

instance (sel : Option String) (act : Bool) : DecidableRel (userLe sel act) :=
  fun a b => inferInstanceAs (Decidable (compareUsers sel act a b ≤ 0))

/-- filteredUsers (Messages.jsx lines 42-98): annotate, then sort with the
stable comparator sort of Array.prototype.sort. -/
def filteredUsers (users : List UserDoc) (selfId : String)
    (presence : String → Bool) (counts : String → Option ChatMeta)
    (selectedChat : Option String) (isActivelyChatting : Bool) : List RUser :=
  List.insertionSort (userLe selectedChat isActivelyChatting)
    (annotateUsers users selfId presence counts)

/-- Descending timestamp order: the orderBy of the message queries in
getChatMessages and loadOlderMessages. -/
def tsDesc (a b : Msg) : Prop := b.timestamp ≤ a.timestamp

instance : DecidableRel tsDesc := fun _ _ => Nat.decLe _ _

instance : IsTotal Msg tsDesc := ⟨fun a b => Nat.le_total b.timestamp a.timestamp⟩

instance : IsTrans Msg tsDesc := ⟨fun _ _ _ h1 h2 => Nat.le_trans h2 h1⟩

/-- config.js getChatMessages (lines 423-439): order the stored messages by
timestamp descending, keep the first limitCount, then reverse so the live
page reads oldest first. -/
def getChatMessages (stored : List Msg) (limitCount : Nat) : List Msg :=
  ((List.insertionSort tsDesc stored).take limitCount).reverse

/-- config.js loadOlderMessages (lines 442-457): the same descending query
restricted to messages with timestamp strictly below the boundary message,
limited, then reversed to oldest-first order. -/
def loadOlderMessages (stored : List Msg) (lastMessage : Msg)
    (limitCount : Nat) : List Msg :=
  ((List.insertionSort tsDesc
      (stored.filter fun m => m.timestamp < lastMessage.timestamp)).take limitCount).reverse

/-- A chat document of the chats collection as consumed by the per-user
ledger subscription. -/
structure ChatDoc where
  participants : List String
  lastMessage : String
  lastMessageTimestamp : Option Nat
  unreadCount : String → Nat

/-- A chat row as delivered by getUserChatsWithCounts, annotated with the
calling user's own unread count. -/
structure ChatRow where
  participants : List String
  lastMessage : String
  lastMessageTimestamp : Option Nat
  unreadCount : Nat

/-- The sort comparator of getUserChatsWithCounts (config.js lines 406-415):
last-message time descending, entries without a timestamp after all entries
with one. -/
def compareChats (a b : ChatRow) : Int :=
  match a.lastMessageTimestamp, b.lastMessageTimestamp with
  | none, none => 0
  | none, some _ => 1
  | some _, none => -1
  | some ta, some tb => (tb : Int) - (ta : Int)

/-- The order relation induced by the chat-list comparator. -/
def chatRowLe (a b : ChatRow) : Prop := compareChats a b ≤ 0

instance : DecidableRel chatRowLe :=
  fun a b => inferInstanceAs (Decidable (compareChats a b ≤ 0))

/-- config.js getUserChatsWithCounts (lines 391-420): keep the chats whose
participants contain the user, annotate each with the user's own counter,
and sort with the descending comparator. -/
def getUserChatsWithCounts (stored : List ChatDoc) (userId : String) : List ChatRow :=
  List.insertionSort chatRowLe
    ((stored.filter fun c => userId ∈ c.participants).map fun c =>
      { participants := c.participants, lastMessage := c.lastMessage,
        lastMessageTimestamp := c.lastMessageTimestamp,
        unreadCount := c.unreadCount userId })

/-- config.js listenToUserPresence (lines 517-528): registers one onValue
subscription per user id on the presence registry.  The JavaScript function
body has no return statement, so the caller receives undefined: the second
component, the returned cancellation handle, is none.  The first component
is the registry of per-id subscriptions active after the call. -/
def listenToUserPresence (userIds : List String) (activeSubs : List String) :
    List String × Option (List String → List String) :=
  (activeSubs ++ userIds, none)

/- Theorems.  Helper lemmas first, then one theorem per claim. -/

theorem applySend_unreadCount_receiver (s r : String) (h : s ≠ r)
    (op : SendOp) (st : ChatState) :
    (applySend s r op st).unreadCount r = st.unreadCount r + 1 := by
  have hrs : r ≠ s := Ne.symm h
  cases op <;>
    simp [applySend, sendMessage, sendMediaMessage, writeChatMeta, readUnreadCount, hrs]

theorem applySend_unreadCount_sender (s r : String) (op : SendOp) (st : ChatState) :
    (applySend s r op st).unreadCount s = 0 := by
  cases op <;>
    simp [applySend, sendMessage, sendMediaMessage, writeChatMeta]

theorem applySends_unreadCount_receiver (s r : String) (h : s ≠ r)
    (ops : List SendOp) :
    ∀ st : ChatState,
      (applySends s r ops st).unreadCount r = st.unreadCount r + ops.length := by
  induction ops with
  | nil => intro st; simp [applySends]
  | cons op rest ih =>
    intro st
    have hstep := applySend_unreadCount_receiver s r h op st
    have htail := ih (applySend s r op st)
    simp only [applySends, List.foldl_cons] at htail ⊢
    rw [htail, hstep, List.length_cons]
    omega

theorem applySends_unreadCount_sender (s r : String) (ops : List SendOp) :
    ∀ st : ChatState, st.unreadCount s = 0 →
      (applySends s r ops st).unreadCount s = 0 := by
  induction ops with
  | nil => intro st hst; simpa [applySends] using hst
  | cons op rest ih =>
    intro st _
    have hstep := applySend_unreadCount_sender s r op st
    have htail := ih (applySend s r op st) hstep
    simpa [applySends] using htail

/-- C1: after any sequence of N appends (text or media sends) from sender S
to receiver R, executed sequentially on a fresh conversation with no
interleaved read events, the ledger holds unreadCount R = N and
unreadCount S = 0. -/
theorem unread_after_appends (S R : String) (h : S ≠ R) (ops : List SendOp) :
    (applySends S R ops initChat).unreadCount R = ops.length ∧
    (applySends S R ops initChat).unreadCount S = 0 := by
  constructor
  · have := applySends_unreadCount_receiver S R h ops initChat
    simpa [initChat] using this
  · exact applySends_unreadCount_sender S R ops initChat rfl

/-- Witness for C1 at a concrete three-append run. -/
theorem unread_after_appends_witness :
    (applySends "alice" "bob"
      [SendOp.text "hi" 1,
       SendOp.media "http:u" "cat.png" 9 "image/png" "image" 2,
       SendOp.text "yo" 3] initChat).unreadCount "bob" = 3 ∧
    (applySends "alice" "bob"
      [SendOp.text "hi" 1,
       SendOp.media "http:u" "cat.png" 9 "image/png" "image" 2,
       SendOp.text "yo" 3] initChat).unreadCount "alice" = 0 := by
  have h := unread_after_appends "alice" "bob" (by decide)
    [SendOp.text "hi" 1,
     SendOp.media "http:u" "cat.png" 9 "image/png" "image" 2,
     SendOp.text "yo" 3]
  simpa using h

/-- C2: the counter update after a send is a client-side read-then-write,
not an atomic server-side increment.  Interleaving the reads of two racing
sends by the same sender loses an update: the raced final counter is 1,
while two sequential sends of the same messages leave it at 2. -/
theorem race_loses_update :
    (sendMessageRace "s" "r" "a" "b" 1 2 initChat).unreadCount "r" = 1 ∧
    (sendMessage "s" "r" "b" 2 (sendMessage "s" "r" "a" 1 initChat)).unreadCount "r" = 2 := by
  constructor <;> decide

/-- C3 counterexample: sendMessage does not reject a body that is empty
after trimming; called on a whitespace-only body it still writes a message
record and bumps the receiver's unread counter. -/
theorem sendMessage_empty_writes :
    (sendMessage "a" "b" "   " 5 initChat).msgs.length = 1 ∧
    (sendMessage "a" "b" "   " 5 initChat).unreadCount "b" = 1 := by
  constructor <;> decide

/-- C3 (amended): the empty-after-trim rejection lives in the caller; when
the trimmed draft is empty, handleSendMessage returns without invoking
sendMessage, so no message is written and no ledger state changes. -/
theorem handleSendMessage_empty_noop (uid newMessage : String)
    (selectedChat : Option String) (sendingMessage : Bool) (t : Nat)
    (st : ChatState) (h : jsTrim newMessage = "") :
    handleSendMessage uid newMessage selectedChat sendingMessage t st = st := by
  simp [handleSendMessage, h]

/-- Witness for the amended C3 on a whitespace-only draft. -/
theorem handleSendMessage_empty_noop_witness :
    handleSendMessage "u" " " (some "v") false 3 initChat = initChat :=
  handleSendMessage_empty_noop "u" " " (some "v") false 3 initChat (by decide)

/-- C4: markChatAsRead zeroes the reading user's unread counter, and it is
idempotent: a second call starting from the post-state leaves the state
unchanged. -/
theorem markChatAsRead_zero_idempotent (userId : String) (st : ChatState) :
    (markChatAsRead userId st).unreadCount userId = 0 ∧
    markChatAsRead userId (markChatAsRead userId st) = markChatAsRead userId st := by
  constructor
  · simp [markChatAsRead]
  · have hf : ∀ m : Msg,
        (if (if m.receiverId = userId ∧ m.read = false then { m with read := true } else m).receiverId = userId ∧
            (if m.receiverId = userId ∧ m.read = false then { m with read := true } else m).read = false
         then { (if m.receiverId = userId ∧ m.read = false then { m with read := true } else m) with read := true }
         else (if m.receiverId = userId ∧ m.read = false then { m with read := true } else m))
        = (if m.receiverId = userId ∧ m.read = false then { m with read := true } else m) := by
      intro m
      by_cases h1 : m.receiverId = userId ∧ m.read = false
      · simp [h1]
      · simp [h1]
    cases st with
    | mk msgs participants lastMessage lastMessageTimestamp lastMessageSender unreadCount =>
      simp only [markChatAsRead, ChatState.mk.injEq, List.map_map, Function.comp,
        eq_self_iff_true, true_and, and_true]
      constructor
      · exact List.map_congr_left fun m _ => hf m
      · funext u
        by_cases h : u = userId <;> simp [h]

theorem charListLe_total (a : List Char) : ∀ b : List Char,
    charListLe a b = true ∨ charListLe b a = true := by
  induction a with
  | nil => intro b; left; rfl
  | cons x xs ih =>
    intro b
    cases b with
    | nil => right; rfl
    | cons y ys =>
      rcases lt_trichotomy x y with hlt | heq | hgt
      · left; simp [charListLe, hlt]
      · subst heq
        rcases ih ys with h | h
        · left; simp [charListLe, h]
        · right; simp [charListLe, h]
      · right; simp [charListLe, hgt]

theorem charListLe_antisymm (a : List Char) : ∀ b : List Char,
    charListLe a b = true → charListLe b a = true → a = b := by
  induction a with
  | nil =>
    intro b _ h2
    cases b with
    | nil => rfl
    | cons y ys => simp [charListLe] at h2
  | cons x xs ih =>
    intro b h1 h2
    cases b with
    | nil => simp [charListLe] at h1
    | cons y ys =>
      rcases lt_trichotomy x y with hlt | heq | hgt
      · simp [charListLe, hlt, asymm hlt] at h2
      · subst heq
        simp only [charListLe, lt_irrefl, if_false] at h1 h2
        rw [ih ys h1 h2]
      · simp [charListLe, hgt, asymm hgt] at h1

theorem strLe_total (a b : String) : strLe a b = true ∨ strLe b a = true :=
  charListLe_total a.data b.data

theorem strLe_antisymm (a b : String) (h1 : strLe a b = true)
    (h2 : strLe b a = true) : a = b :=
  String.ext (charListLe_antisymm a.data b.data h1 h2)

theorem append_sep_inj (r1 r2 : List Char) : ∀ l1 l2 : List Char,
    '_' ∉ l1 → '_' ∉ l2 → l1 ++ '_' :: r1 = l2 ++ '_' :: r2 →
    l1 = l2 ∧ r1 = r2 := by
  intro l1
  induction l1 with
  | nil =>
    intro l2 _ h2 h
    cases l2 with
    | nil => simpa using h
    | cons c t =>
      simp only [List.nil_append, List.cons_append, List.cons.injEq] at h
      exact absurd (show ('_' : Char) ∈ c :: t by rw [h.1]; exact List.mem_cons_self c t) h2
  | cons x xs ih =>
    intro l2 h1 h2 h
    cases l2 with
    | nil =>
      simp only [List.cons_append, List.nil_append, List.cons.injEq] at h
      exact absurd (show ('_' : Char) ∈ x :: xs by rw [← h.1]; exact List.mem_cons_self x xs) h1
    | cons y ys =>
      simp only [List.cons_append, List.cons.injEq] at h
      have h1t : ('_' : Char) ∉ xs := fun hm => h1 (List.mem_cons_of_mem x hm)
      have h2t : ('_' : Char) ∉ ys := fun hm => h2 (List.mem_cons_of_mem y hm)
      obtain ⟨hl, hr⟩ := ih ys h1t h2t h.2
      exact ⟨by rw [h.1, hl], hr⟩

theorem data_append_sep (u1 u2 : String) :
    (u1 ++ "_" ++ u2).data = u1.data ++ '_' :: u2.data := by
  rw [String.data_append, String.data_append]
  show u1.data ++ ['_'] ++ u2.data = _
  simp

theorem sep_join_inj (x y z w : String) (hx : '_' ∉ x.data) (hz : '_' ∉ z.data)
    (h : x ++ "_" ++ y = z ++ "_" ++ w) : x = z ∧ y = w := by
  have hd := congrArg String.data h
  rw [data_append_sep, data_append_sep] at hd
  obtain ⟨h1, h2⟩ := append_sep_inj y.data w.data x.data z.data hx hz hd
  exact ⟨String.ext h1, String.ext h2⟩

/-- C5: createChatId is symmetric in its two arguments, and for ids that do
not contain the underscore separator it is collision-free in the second
argument: distinct partners yield distinct keys. -/
theorem createChatId_symm_inj (a b c : String) :
    createChatId a b = createChatId b a ∧
    ('_' ∉ a.data → '_' ∉ b.data → '_' ∉ c.data → b ≠ c →
      createChatId a b ≠ createChatId a c) := by
  constructor
  · cases h1 : strLe a b <;> cases h2 : strLe b a <;>
      simp only [createChatId, h1, h2, if_true, if_false, Bool.false_eq_true]
    · rcases strLe_total a b with h | h
      · rw [h] at h1; exact absurd h1 (by simp)
      · rw [h] at h2; exact absurd h2 (by simp)
    · rw [strLe_antisymm a b h1 h2]
  · intro ha hb hc hbc heq
    unfold createChatId at heq
    cases h1 : strLe a b <;> cases h2 : strLe a c <;>
      simp only [h1, h2, if_true, if_false, Bool.false_eq_true] at heq
    · obtain ⟨hbc2, -⟩ := sep_join_inj b a c a hb hc heq
      exact hbc hbc2
    · obtain ⟨hba, hac⟩ := sep_join_inj b a a c hb ha heq
      exact hbc (hba.trans hac)
    · obtain ⟨hac, hba⟩ := sep_join_inj a b c a ha hc heq
      exact hbc (hba.trans hac)
    · obtain ⟨-, hbc2⟩ := sep_join_inj a b a c ha ha heq
      exact hbc hbc2

/-- Witness for C5 at concrete separator-free ids. -/
theorem createChatId_symm_inj_witness :
    createChatId "u1" "u2" = createChatId "u2" "u1" ∧
    createChatId "u1" "u2" ≠ createChatId "u1" "u3" := by
  have h := createChatId_symm_inj "u1" "u2" "u3"
  exact ⟨h.1, h.2 (by decide) (by decide) (by decide) (by decide)⟩

theorem compareUsers_sel_left (s : String) (a b : RUser)
    (ha : a.id = s) (hb : b.id ≠ s) :
    compareUsers (some s) true a b = -1 := by
  have hb2 : ¬ s = b.id := fun h => hb h.symm
  simp [compareUsers, ha, hb2]

theorem compareUsers_sel_right (s : String) (a b : RUser)
    (ha : a.id ≠ s) (hb : b.id = s) :
    compareUsers (some s) true a b = 1 := by
  have ha2 : ¬ s = a.id := fun h => ha h.symm
  simp [compareUsers, hb, ha2]

theorem orderedInsert_sel_head (s : String) (x : RUser) (l : List RUser)
    (hx : x.id = s) :
    ((List.orderedInsert (userLe (some s) true) x l).head?.map RUser.id) = some s := by
  cases l with
  | nil => simp [List.orderedInsert, hx]
  | cons y ys =>
    by_cases hr : userLe (some s) true x y
    · simp [List.orderedInsert, hr, hx]
    · by_cases hy : y.id = s
      · simp [List.orderedInsert, hr, hy]
      · exact absurd (show userLe (some s) true x y by
          unfold userLe
          rw [compareUsers_sel_left s x y hx hy]
          decide) hr

theorem orderedInsert_keep_sel_head (s : String) (x h0 : RUser) (t0 : List RUser)
    (h0sel : h0.id = s) :
    ((List.orderedInsert (userLe (some s) true) x (h0 :: t0)).head?.map RUser.id) = some s := by
  by_cases hx : x.id = s
  · exact orderedInsert_sel_head s x (h0 :: t0) hx
  · by_cases hr : userLe (some s) true x h0
    · exact absurd hr (show ¬ userLe (some s) true x h0 by
        unfold userLe
        rw [compareUsers_sel_right s x h0 hx h0sel]
        decide)
    · simp [List.orderedInsert, hr, h0sel]

theorem insertionSort_sel_head (s : String) (l : List RUser)
    (hl : ∃ u ∈ l, u.id = s) :
    ((List.insertionSort (userLe (some s) true) l).head?.map RUser.id) = some s := by
  induction l with
  | nil => simp at hl
  | cons x xs ih =>
    simp only [List.insertionSort]
    by_cases hx : x.id = s
    · exact orderedInsert_sel_head s x _ hx
    · obtain ⟨u, hu, hus⟩ := hl
      rcases List.mem_cons.mp hu with rfl | hu2
      · exact absurd hus hx
      · have htail := ih ⟨u, hu2, hus⟩
        cases hsorted : List.insertionSort (userLe (some s) true) xs with
        | nil => rw [hsorted] at htail; simp at htail
        | cons h0 t0 =>
          rw [hsorted] at htail
          simp only [List.head?_cons, Option.map_some', Option.some.injEq] at htail
          exact orderedInsert_keep_sel_head s x h0 t0 htail

/-- C6: whenever isActivelyChatting is true, filteredUsers places the
conversation matching the selected chat id first in its output,
unconditionally — ahead of every other comparison rule and regardless of
its unread count, recency, presence or account age. -/
theorem filteredUsers_selected_first (users : List UserDoc) (selfId : String)
    (presence : String → Bool) (counts : String → Option ChatMeta)
    (s : String) (u : UserDoc) (hu : u ∈ users) (hid : u.id = s)
    (hself : s ≠ selfId) :
    ((filteredUsers users selfId presence counts (some s) true).head?.map RUser.id) = some s := by
  unfold filteredUsers
  apply insertionSort_sel_head
  refine ⟨_, List.mem_map_of_mem _ (List.mem_filter.mpr ⟨hu, ?_⟩), ?_⟩
  · simp [hid, hself]
  · simpa [annotateUsers] using hid

/-- Presence map used by the ranking witness: everyone offline. -/
def presenceAllOffline : String → Bool := fun _ => false

/-- Chat-counts map used by the ranking witness: the non-selected partner
has many unread messages and a more recent last message than the selected
partner, so every later comparator rule favours the non-selected one. -/
def rankWitnessCounts : String → Option ChatMeta := fun cid =>
  if cid = createChatId "me" "alice" then some ⟨5, some 100⟩
  else if cid = createChatId "me" "bob" then some ⟨0, some 1⟩
  else none

/-- Witness for C6: with bob selected and actively chatting, bob sorts
first even though alice has more unread messages and a newer message. -/
theorem filteredUsers_selected_first_witness :
    ((filteredUsers [⟨"alice", 50⟩, ⟨"bob", 10⟩] "me" presenceAllOffline
        rankWitnessCounts (some "bob") true).head?.map RUser.id) = some "bob" :=
  filteredUsers_selected_first [⟨"alice", 50⟩, ⟨"bob", 10⟩] "me"
    presenceAllOffline rankWitnessCounts "bob" ⟨"bob", 10⟩
    (by decide) rfl (by decide)

/-- C7: filteredUsers is pure and deterministic — two runs on identical
input yield the identical output order — and its output is a permutation
of the annotated conversation list, so it induces an ordering of exactly
the input conversations. -/
theorem filteredUsers_deterministic_perm (users : List UserDoc)
    (selfId : String) (presence : String → Bool)
    (counts : String → Option ChatMeta) (selectedChat : Option String)
    (isActivelyChatting : Bool) :
    filteredUsers users selfId presence counts selectedChat isActivelyChatting
      = filteredUsers users selfId presence counts selectedChat isActivelyChatting ∧
    List.Perm
      (filteredUsers users selfId presence counts selectedChat isActivelyChatting)
      (annotateUsers users selfId presence counts) :=
  ⟨rfl, List.perm_insertionSort _ _⟩

theorem mem_loadOlderMessages_lt (stored : List Msg) (lastMessage : Msg)
    (limitCount : Nat) (m : Msg)
    (hm : m ∈ loadOlderMessages stored lastMessage limitCount) :
    m.timestamp < lastMessage.timestamp := by
  unfold loadOlderMessages at hm
  rw [List.mem_reverse] at hm
  have hm2 := List.take_subset _ _ hm
  have hm3 := (List.perm_insertionSort tsDesc _).mem_iff.mp hm2
  exact of_decide_eq_true (List.mem_filter.mp hm3).2

/-- C8: loadOlderMessages returns at most limitCount messages, each
strictly older than the boundary message, ordered oldest first, and none
of them can coincide with a message of any live page lying at or after the
boundary timestamp. -/
theorem loadOlderMessages_spec (stored : List Msg) (lastMessage : Msg)
    (limitCount : Nat) :
    (loadOlderMessages stored lastMessage limitCount).length ≤ limitCount ∧
    (∀ m ∈ loadOlderMessages stored lastMessage limitCount,
      m.timestamp < lastMessage.timestamp) ∧
    List.Pairwise (fun a b => a.timestamp ≤ b.timestamp)
      (loadOlderMessages stored lastMessage limitCount) ∧
    (∀ k : Nat, ∀ m ∈ loadOlderMessages stored lastMessage limitCount,
      ∀ m2 ∈ getChatMessages stored k,
        lastMessage.timestamp ≤ m2.timestamp → m ≠ m2) := by
  refine ⟨?_, ?_, ?_, ?_⟩
  · unfold loadOlderMessages
    rw [List.length_reverse, List.length_take]
    exact min_le_left _ _
  · exact fun m hm => mem_loadOlderMessages_lt stored lastMessage limitCount m hm
  · unfold loadOlderMessages
    have hs : List.Pairwise tsDesc
        (List.insertionSort tsDesc
          (stored.filter fun m => m.timestamp < lastMessage.timestamp)) :=
      List.sorted_insertionSort tsDesc _
    have ht := List.Pairwise.sublist (List.take_sublist limitCount _) hs
    exact List.pairwise_reverse.mpr ht
  · intro k m hm m2 _ hge heq
    have hlt := mem_loadOlderMessages_lt stored lastMessage limitCount m hm
    rw [heq] at hlt
    omega

/-- Witness for C8: four stored messages, boundary at the newest, page
size two. -/
theorem loadOlderMessages_spec_witness :
    (loadOlderMessages
        [⟨"a", "b", MsgBody.text "m1", 1, false⟩,
         ⟨"a", "b", MsgBody.text "m2", 2, false⟩,
         ⟨"a", "b", MsgBody.text "m3", 3, false⟩,
         ⟨"a", "b", MsgBody.text "m4", 4, false⟩]
        ⟨"a", "b", MsgBody.text "m4", 4, false⟩ 2).length ≤ 2 ∧
    (⟨"a", "b", MsgBody.text "m3", 3, false⟩ : Msg).timestamp
      < (⟨"a", "b", MsgBody.text "m4", 4, false⟩ : Msg).timestamp ∧
    (⟨"a", "b", MsgBody.text "m3", 3, false⟩ : Msg)
      ≠ (⟨"a", "b", MsgBody.text "m4", 4, false⟩ : Msg) := by
  have h := loadOlderMessages_spec
    [⟨"a", "b", MsgBody.text "m1", 1, false⟩,
     ⟨"a", "b", MsgBody.text "m2", 2, false⟩,
     ⟨"a", "b", MsgBody.text "m3", 3, false⟩,
     ⟨"a", "b", MsgBody.text "m4", 4, false⟩]
    ⟨"a", "b", MsgBody.text "m4", 4, false⟩ 2
  refine ⟨h.1, h.2.1 _ (by decide), h.2.2.2 4 _ (by decide) _ (by decide) (by decide)⟩

/-- C9: listenToUserPresence registers one live per-id subscription for
every requested user id, and returns none in place of a cancellation
handle — the JavaScript function returns undefined — so no caller can ever
release the registered subscriptions. -/
theorem listenToUserPresence_no_handle (userIds activeSubs : List String) :
    (listenToUserPresence userIds activeSubs).2 = none ∧
    (listenToUserPresence userIds activeSubs).1 = activeSubs ++ userIds :=
  ⟨rfl, rfl⟩

/-- Descending order on chat rows with missing timestamps last: the
ordering getUserChatsWithCounts guarantees on its delivered list. -/
def chatRowDescNoneLast (a b : ChatRow) : Prop :=
  match a.lastMessageTimestamp, b.lastMessageTimestamp with
  | some ta, some tb => tb ≤ ta
  | _, none => True
  | none, some _ => False

theorem chatRowLe_total (a b : ChatRow) : chatRowLe a b ∨ chatRowLe b a := by
  obtain ⟨pa, la, ta, ua⟩ := a
  obtain ⟨pb, lb, tb, ub⟩ := b
  unfold chatRowLe compareChats
  rcases ta with - | ta <;> rcases tb with - | tb <;> simp <;> omega

theorem chatRowLe_trans (a b c : ChatRow) (h1 : chatRowLe a b)
    (h2 : chatRowLe b c) : chatRowLe a c := by
  obtain ⟨pa, la, ta, ua⟩ := a
  obtain ⟨pb, lb, tb, ub⟩ := b
  obtain ⟨pc, lc, tc, uc⟩ := c
  unfold chatRowLe compareChats at h1 h2 ⊢
  rcases ta with - | ta <;> rcases tb with - | tb <;> rcases tc with - | tc <;>
    simp_all <;> omega

instance : IsTotal ChatRow chatRowLe := ⟨chatRowLe_total⟩

instance : IsTrans ChatRow chatRowLe := ⟨fun a b c => chatRowLe_trans a b c⟩

theorem chatRowLe_implies_descNoneLast (a b : ChatRow) (h : chatRowLe a b) :
    chatRowDescNoneLast a b := by
  obtain ⟨pa, la, ta, ua⟩ := a
  obtain ⟨pb, lb, tb, ub⟩ := b
  unfold chatRowLe compareChats at h
  unfold chatRowDescNoneLast
  rcases ta with - | ta <;> rcases tb with - | tb <;> simp_all

/-- C10: getUserChatsWithCounts delivers the user's conversation rows
already sorted by lastMessageTimestamp descending, rows without a
timestamp after all rows that have one; the delivered list is a
permutation of the user's annotated chat documents. -/
theorem getUserChatsWithCounts_sorted (stored : List ChatDoc) (userId : String) :
    List.Pairwise chatRowDescNoneLast (getUserChatsWithCounts stored userId) ∧
    List.Perm (getUserChatsWithCounts stored userId)
      ((stored.filter fun c => userId ∈ c.participants).map fun c =>
        { participants := c.participants, lastMessage := c.lastMessage,
          lastMessageTimestamp := c.lastMessageTimestamp,
          unreadCount := c.unreadCount userId }) := by
  constructor
  · have hs : List.Pairwise chatRowLe (getUserChatsWithCounts stored userId) :=
      List.sorted_insertionSort chatRowLe _
    exact hs.imp fun h => chatRowLe_implies_descNoneLast _ _ h
  · exact List.perm_insertionSort _ _
